import Mathlib

/-!
Verification of the session/connection core of the multiplayer lobby relay
(`src/index.ts`).  The server state (the `games` map, each connection's
`ws.data` context, and the topic subscriptions), the message handlers
(`open`, `message`, `close`, `pong`) and the liveness sweep are embedded as
pure functions from server state to server state plus a list of outbound
transport effects.  JavaScript strings are Lean `String`s, `Date.now()`
timestamps are `Int` parameters, and the `Map<string, GameState>` is an
association list with JS `Map` get/set/delete semantics.
-/

namespace Lobby

/-- Connection identifier: stands for one `ServerWebSocket` handle. -/
abbrev ConnId := Nat

/-- `WebsocketCtxData` (src/index.ts:5-9).  `gameName`/`username` are
`Option String` because the TS values can be `undefined`/`null` (upgrade
with missing query params, or a `GAMEJOIN` payload with no comma). -/
structure Ctx where
  gameName : Option String
  username : Option String
  lastPong : Int
  deriving Repr, DecidableEq

/-- One entry of `GameState.players` (src/index.ts:13-16). -/
structure Player where
  ws : ConnId
  username : String
  deriving Repr, DecidableEq

/-- `GameState` (src/index.ts:11-17). -/
structure GameState where
  hasStarted : Bool
  players : List Player
  deriving Repr, DecidableEq

def MAX_PLAYERS : Nat := 5
def MAX_GAME_NAME_LENGTH : Nat := 32
def MAX_USERNAME_LENGTH : Nat := 26

/-- `PING_INTERVAL = 1000 * 60 * 1` (src/index.ts:124). -/
def PING_INTERVAL : Int := 1000 * 60 * 1

/-- `enum GameEvent` (src/index.ts:26-35). -/
inductive GameEvent where
  | Join | JoinDeny | JoinAccept | Leave
  | GameAction | GameActionDeny | GameEnd | GameMessage
  deriving Repr, DecidableEq

def GameEvent.str : GameEvent → String
  | .Join => "GAMEJOIN"
  | .JoinDeny => "GAMEJOIN_DENY"
  | .JoinAccept => "GAMEJOIN_ACCEPT"
  | .Leave => "GAMELEAVE"
  | .GameAction => "GAMEACTION"
  | .GameActionDeny => "GAMEACTION_DENY"
  | .GameEnd => "GAMEEND"
  | .GameMessage => "GAMEMSG"

/-- Outbound transport calls made by the handlers.  `publishExcl` is
`ws.publish` (Bun: delivered to the topic's subscribers except the
publishing socket, since `publishToSelf` is not enabled in this server);
`publishAll` is `server.publish` (delivered to all subscribers). -/
inductive Effect where
  | send (dst : ConnId) (msg : String)
  | publishAll (topic : String) (msg : String)
  | publishExcl (sender : ConnId) (topic : String) (msg : String)
  | close (c : ConnId) (code : Nat) (msg : String)
  | ping (c : ConnId)
  deriving Repr, DecidableEq

/-- Whole-process state: the `games` map (src/index.ts:24), each live
connection's `ws.data`, and the topic subscriptions held by the transport. -/
structure ServerState where
  games : List (String × GameState)
  ctxs : List (ConnId × Ctx)
  subs : List (ConnId × String)
  deriving Repr, DecidableEq

def initState : ServerState := ⟨[], [], []⟩

/-! ### JS `Map` operations on the association list -/

/-- `Map.prototype.get`. -/
def mapGet : List (String × GameState) → String → Option GameState
  | [], _ => none
  | (k', v') :: rest, k => if k' = k then some v' else mapGet rest k

/-- `Map.prototype.set`: replace in place, else append (JS insertion order). -/
def mapSet : List (String × GameState) → String → GameState → List (String × GameState)
  | [], k, v => [(k, v)]
  | (k', v') :: rest, k, v =>
    if k' = k then (k, v) :: rest else (k', v') :: mapSet rest k v

/-- `Map.prototype.delete`. -/
def mapDelete (m : List (String × GameState)) (k : String) : List (String × GameState) :=
  m.filter (fun p => !(p.1 = k : Bool))

/-- `games.get(key)` where the key may be `undefined` (no entry then). -/
def gamesGetOpt (st : ServerState) : Option String → Option GameState
  | some k => mapGet st.games k
  | none => none

/-- Read a connection's `ws.data` (default: the never-opened connection). -/
def ctxGet (st : ServerState) (c : ConnId) : Ctx :=
  match st.ctxs.find? (fun p => p.1 = c) with
  | some p => p.2
  | none => ⟨none, none, 0⟩

/-- Overwrite a connection's `ws.data`. -/
def ctxSet : List (ConnId × Ctx) → ConnId → Ctx → List (ConnId × Ctx)
  | [], c, v => [(c, v)]
  | (c', v') :: rest, c, v =>
    if c' = c then (c, v) :: rest else (c', v') :: ctxSet rest c v

/-- `ws.subscribe(topic)` (idempotent). -/
def subAdd (subs : List (ConnId × String)) (c : ConnId) (t : String) : List (ConnId × String) :=
  if (c, t) ∈ subs then subs else subs ++ [(c, t)]

/-- `ws.unsubscribe(topic)`. -/
def subRemove (subs : List (ConnId × String)) (c : ConnId) (t : String) : List (ConnId × String) :=
  subs.filter (fun p => !(p = (c, t) : Bool))

/-! ### Wire codec -/

/-- JS `String.prototype.split(sep)` for a one-character separator
(splits on every occurrence; `"".split(sep) = [""]`). -/
def jsSplit (s : String) (sep : Char) : List String :=
  (s.toList.splitOn sep).map (fun l => String.mk l)

/-- `encodeMessage` (src/index.ts:56-58). -/
def encodeMessage (event : GameEvent) (data : String) : String :=
  event.str ++ "." ++ data

/-- The decode step of the `message` handler (src/index.ts:177-178):
`const [event, data] = message.toString().split('.')`.  `data` is the
second split segment, or `undefined` when the raw text has no dot. -/
def decodeMessage (raw : String) : String × Option String :=
  ((jsSplit raw '.').headD "", (jsSplit raw '.').get? 1)

/-- `isGameNameValid` (src/index.ts:42-44). -/
def isGameNameValid : Option String → Bool
  | none => false
  | some s => decide (s.length ≤ MAX_GAME_NAME_LENGTH)

/-- `isUsernameValid` (src/index.ts:51-54). -/
def isUsernameValid : Option String → Bool
  | none => false
  | some s => decide (s.length ≤ MAX_USERNAME_LENGTH)

/-- `encodePlayerList` (src/index.ts:60-62); `join(',')` on an existing
game, the literal `EMPTY` only when the lookup was `undefined`. -/
def encodePlayerList : Option GameState → String
  | none => "EMPTY"
  | some g => String.intercalate "," (g.players.map Player.username)

/-- Characters the JS `encodeURI` leaves unescaped besides alphanumerics
(`Char.ofNat 39` is the single-quote character). -/
def uriMarkChars : List Char :=
  ['-', '_', '.', '!', '~', '*', Char.ofNat 39, '(', ')', ';', '/', '?', ':',
   '@', '&', '=', '+', '$', ',', '#']

def uriUnescaped (ch : Char) : Bool :=
  ch.isAlphanum || uriMarkChars.contains ch

def hexDigit (n : Nat) : Char :=
  "0123456789ABCDEF".toList.getD n 'X'

def byteHex (b : Nat) : String :=
  String.mk ['%', hexDigit (b / 16 % 16), hexDigit (b % 16)]

/-- UTF-8 bytes of one code point. -/
def utf8Bytes (ch : Char) : List Nat :=
  let n := ch.toNat
  if n < 128 then [n]
  else if n < 2048 then [192 + n / 64, 128 + n % 64]
  else if n < 65536 then [224 + n / 4096, 128 + n / 64 % 64, 128 + n % 64]
  else [240 + n / 262144, 128 + n / 4096 % 64, 128 + n / 64 % 64, 128 + n % 64]

/-- JS `encodeURI`: percent-escape the UTF-8 bytes of every character
outside the unescaped set. -/
def encodeURI (s : String) : String :=
  String.join (s.toList.map (fun ch =>
    if uriUnescaped ch then String.singleton ch
    else String.join ((utf8Bytes ch).map byteHex)))

/-! ### Registry / controller operations -/

/-- `validatePlayerData` (src/index.ts:64-78): the first failing guard
sends its `GAMEJOIN_DENY` and returns `false`. -/
def validatePlayerData (c : ConnId) (ctx : Ctx) (game : Option GameState) :
    Bool × List Effect :=
  if !isGameNameValid ctx.gameName then
    (false, [.send c (encodeMessage .JoinDeny "GAME_NAME_INVALID")])
  else if !isUsernameValid ctx.username then
    (false, [.send c (encodeMessage .JoinDeny "USERNAME_INVALID")])
  else
    match game with
    | some g =>
      if g.players.any (fun p => some p.username == ctx.username) then
        (false, [.send c (encodeMessage .JoinDeny "USERNAME_TAKEN")])
      else (true, [])
    | none => (true, [])

/-- `validateGameAvailability` (src/index.ts:80-89); note the literal
deny string in the source. -/
def validateGameAvailability (c : ConnId) (game : Option GameState) :
    Bool × List Effect :=
  match game with
  | some g =>
    if decide (MAX_PLAYERS ≤ g.players.length) then
      (false, [.send c "GAMEJOIN_DENY.GAME_FULL"])
    else (true, [])
  | none => (true, [])

/-- `addAndSubscribePlayerToGame` (src/index.ts:91-105).  The `getD`
defaults are unreachable: every caller has passed `validatePlayerData`,
so `ctx.gameName`/`ctx.username` are `some`. -/
def addAndSubscribePlayerToGame (st : ServerState) (game : Option GameState)
    (c : ConnId) (ctx : Ctx) : ServerState × List Effect :=
  let gname := ctx.gameName.getD "undefined"
  let uname := ctx.username.getD "undefined"
  let games1 :=
    match game with
    | none => mapSet st.games gname ⟨false, [⟨c, uname⟩]⟩
    | some g => mapSet st.games gname { g with players := g.players ++ [⟨c, uname⟩] }
  let subs1 := subAdd st.subs c gname
  let playerList := encodePlayerList (mapGet games1 gname)
  ({ st with games := games1, subs := subs1 },
   [.publishAll gname (encodeMessage .JoinAccept playerList)])

/-- `removePlayerFromGame` (src/index.ts:107-118).  `loc` is the map key
at which the mutable `game` object currently lives (`none` when the object
has already been detached from the map): the in-place `game.players = …`
writes through to that entry, while the topic and the `games.delete` key
come from the leaving connection's current `ws.data.gameName`. -/
def removePlayerFromGame (st : ServerState) (loc : Option String) (g : GameState)
    (c : ConnId) (reason : String) : ServerState × GameState × List Effect :=
  let ctx := ctxGet st c
  let g1 : GameState :=
    { g with players := g.players.filter (fun p => !(some p.username == ctx.username)) }
  let games1 :=
    match loc with
    | some k => mapSet st.games k g1
    | none => st.games
  let topic := ctx.gameName.getD "undefined"
  let leaveEff := Effect.publishExcl c topic (encodeMessage .Leave (encodePlayerList (some g1)))
  if g1.hasStarted then
    let games2 :=
      match ctx.gameName with
      | some k => mapDelete games1 k
      | none => games1
    ({ st with games := games2 }, g1,
     [leaveEff, .publishExcl c topic (encodeMessage .GameEnd reason)])
  else
    ({ st with games := games1 }, g1, [leaveEff])

/-- `isPlayerInGame` (src/index.ts:120-122). -/
def isPlayerInGame (g : GameState) (username : Option String) : Bool :=
  g.players.any (fun p => some p.username == username)

/-- The shared join path: `validatePlayerData(ws, g) && validateGameAvailability(ws, g)`
then `addAndSubscribePlayerToGame(g, ws)`, exactly as both the `open`
handler (src/index.ts:236-238) and the `GAMEJOIN` branch (src/index.ts:186-188)
run it.  Validation failure leaves the state untouched. -/
def tryJoin (st : ServerState) (c : ConnId) (ctx : Ctx) : ServerState × List Effect :=
  let currentGame := gamesGetOpt st ctx.gameName
  let v1 := validatePlayerData c ctx currentGame
  if v1.1 then
    let v2 := validateGameAvailability c currentGame
    if v2.1 then addAndSubscribePlayerToGame st currentGame c ctx
    else (st, v2.2)
  else (st, v1.2)

/-! ### Handlers -/

/-- The `message` handler (src/index.ts:176-228).  `now` is `Date.now()`.
A `GAMEJOIN` whose raw text has no dot throws a `TypeError` on
`data.split(',')` before any mutation, so it leaves the state unchanged.
The `getD "undefined"` defaults reproduce JS string coercion of
`undefined` in template literals / `encodeURI`. -/
def handleMessage (st : ServerState) (c : ConnId) (message : String) (now : Int) :
    ServerState × List Effect :=
  let event := (jsSplit message '.').headD ""
  let data := (jsSplit message '.').get? 1
  let ctx := ctxGet st c
  let currentGame := gamesGetOpt st ctx.gameName
  if event == GameEvent.Join.str then
    match data with
    | none => (st, [])
    | some d =>
      let dparts := jsSplit d ','
      let ctx1 : Ctx := ⟨some (dparts.headD ""), dparts.get? 1, now⟩
      let st1 : ServerState := { st with ctxs := ctxSet st.ctxs c ctx1 }
      tryJoin st1 c ctx1
  else if event == GameEvent.Leave.str then
    match currentGame with
    | some g =>
      if isPlayerInGame g ctx.username then
        let r := removePlayerFromGame st ctx.gameName g c "PLAYER_LEFT"
        (r.1, r.2.2)
      else (st, [])
    | none => (st, [])
  else if event == GameEvent.GameAction.str then
    match currentGame with
    | some g =>
      if isPlayerInGame g ctx.username then
        let g1 :=
          if !g.hasStarted && decide (2 ≤ g.players.length)
              && (ctx.username == some (g.players.headD ⟨0, ""⟩).username) then
            { g with hasStarted := true }
          else g
        let st1 : ServerState :=
          { st with games := mapSet st.games (ctx.gameName.getD "undefined") g1 }
        if !g1.hasStarted then
          (st1, [.send c (encodeMessage .GameActionDeny "GAME_NOT_STARTED")])
        else
          (st1, [.publishExcl c (ctx.gameName.getD "undefined")
                   (encodeMessage .GameAction (data.getD "undefined"))])
      else (st, [])
    | none => (st, [])
  else if event == GameEvent.GameMessage.str then
    match currentGame with
    | some g =>
      if isPlayerInGame g ctx.username then
        (st, [.publishAll (ctx.gameName.getD "undefined")
                (encodeMessage .GameMessage (encodeURI (data.getD "undefined")))])
      else (st, [])
    | none => (st, [])
  else (st, [])

/-- The `open` handler together with the upgrade in `fetch`
(src/index.ts:144-156, 233-240): the upgrade stores the query params in
`ws.data`, `open` validates and possibly joins, and finally sets
`ws.data.lastPong = Date.now()`. -/
def handleOpen (st : ServerState) (c : ConnId) (gameName username : Option String)
    (now : Int) : ServerState × List Effect :=
  let ctx0 : Ctx := ⟨gameName, username, 0⟩
  let st1 : ServerState := { st with ctxs := ctxSet st.ctxs c ctx0 }
  let r := tryJoin st1 c ctx0
  let st2 := r.1
  ({ st2 with ctxs := ctxSet st2.ctxs c { ctx0 with lastPong := now } }, r.2)

/-- The `close` handler (src/index.ts:245-308), commented-out code elided:
remove the player if present, delete the game if it is now empty,
unsubscribe — all only when the connection's stored game name resolves. -/
def handleClose (st : ServerState) (c : ConnId) : ServerState × List Effect :=
  let ctx := ctxGet st c
  match gamesGetOpt st ctx.gameName with
  | none => (st, [])
  | some g =>
    let r :=
      if isPlayerInGame g ctx.username then
        removePlayerFromGame st ctx.gameName g c "PLAYER_LEFT"
      else (st, g, [])
    let st2 :=
      if r.2.1.players.length == 0 then
        { r.1 with games :=
            match ctx.gameName with
            | some k => mapDelete r.1.games k
            | none => r.1.games }
      else r.1
    ({ st2 with subs := subRemove st2.subs c (ctx.gameName.getD "undefined") }, r.2.2)

/-- The `pong` handler (src/index.ts:162-170). -/
def handlePong (st : ServerState) (c : ConnId) (now : Int) : ServerState × List Effect :=
  let ctx := ctxGet st c
  match gamesGetOpt st ctx.gameName with
  | some g =>
    if g.players.any (fun p => p.ws == c) then
      ({ st with ctxs := ctxSet st.ctxs c { ctx with lastPong := now } }, [])
    else (st, [])
  | none => (st, [])

/-! ### Liveness sweep (src/index.ts:125-138) -/

/-- The body of the inner `game.players.forEach`: the threaded accumulator
carries the mutable `game` object's current value and whether it still
lives in the map at the iterated key `gkey`.  Evicted connections run the
shared removal path with reason `PLAYER_TIMEOUT`, then the transport link
is closed; live ones are pinged. -/
def sweepStep (now : Int) (gkey : String) (acc : ServerState × GameState × Bool)
    (p : Player) : (ServerState × GameState × Bool) × List Effect :=
  let st := acc.1
  let g := acc.2.1
  let inMap := acc.2.2
  let ctx := ctxGet st p.ws
  let lastPing := now - PING_INTERVAL
  if lastPing - ctx.lastPong > PING_INTERVAL then
    let r := removePlayerFromGame st (if inMap then some gkey else none) g p.ws "PLAYER_TIMEOUT"
    ((r.1, r.2.1, inMap && !(r.2.1.hasStarted && (ctx.gameName == some gkey))),
     r.2.2 ++ [.close p.ws 1000 "PING_TIMEOUT"])
  else ((st, g, inMap), [.ping p.ws])

/-- Accumulating wrapper around `sweepStep` for the inner `forEach` fold. -/
def sweepFoldStep (now : Int) (gkey : String)
    (acc : (ServerState × GameState × Bool) × List Effect) (p : Player) :
    (ServerState × GameState × Bool) × List Effect :=
  let r1 := sweepStep now gkey acc.1 p
  (r1.1, acc.2 ++ r1.2)

/-- One entry of the outer `games.forEach`: JS `Map.forEach` skips entries
deleted before being visited, and the inner `forEach` iterates the array
snapshot taken when the entry is visited. -/
def sweepGame (now : Int) (st : ServerState) (gkey : String) : ServerState × List Effect :=
  match mapGet st.games gkey with
  | none => (st, [])
  | some g =>
    let r := g.players.foldl (sweepFoldStep now gkey) ((st, g, true), [])
    (r.1.1, r.2)

/-- Accumulating wrapper around `sweepGame` for the outer `forEach` fold. -/
def tickFoldStep (now : Int) (acc : ServerState × List Effect) (k : String) :
    ServerState × List Effect :=
  let r := sweepGame now acc.1 k
  (r.1, acc.2 ++ r.2)

/-- One tick of the `setInterval` sweep: iterate the keys present when the
tick starts. -/
def sweepTick (st : ServerState) (now : Int) : ServerState × List Effect :=
  (st.games.map Prod.fst).foldl (tickFoldStep now) (st, [])

/-! ### The transport-driven event loop -/

/-- The inbound events the transport layer can feed the core. -/
inductive Op where
  | openConn (c : ConnId) (gameName username : Option String) (now : Int)
  | msgEvt (c : ConnId) (raw : String) (now : Int)
  | pongEvt (c : ConnId) (now : Int)
  | closeEvt (c : ConnId)
  | sweepEvt (now : Int)

def applyOp (st : ServerState) : Op → ServerState × List Effect
  | .openConn c g u now => handleOpen st c g u now
  | .msgEvt c raw now => handleMessage st c raw now
  | .pongEvt c now => handlePong st c now
  | .closeEvt c => handleClose st c
  | .sweepEvt now => sweepTick st now

/-- States reachable from process start by any sequence of transport events. -/
inductive Reachable : ServerState → Prop
  | init : Reachable initState
  | step {st : ServerState} (op : Op) : Reachable st → Reachable (applyOp st op).1

/-! ### Delivery model of the transport fan-out (spec §4.5, Bun topics):
a `server.publish` reaches every subscriber of the topic, a `ws.publish`
every subscriber except the publishing connection, a `send` its target. -/

def subscribers (subs : List (ConnId × String)) (topic : String) : List ConnId :=
  (subs.filter (fun p => p.2 == topic)).map Prod.fst

def recipients (subs : List (ConnId × String)) : Effect → List ConnId
  | .send dst _ => [dst]
  | .publishAll topic _ => subscribers subs topic
  | .publishExcl sender topic _ => (subscribers subs topic).filter (fun c => !(c == sender))
  | .close _ _ _ => []
  | .ping _ => []

/-! ### Map lemmas -/

theorem mapGet_mem {m : List (String × GameState)} {k : String} {v : GameState}
    (h : mapGet m k = some v) : (k, v) ∈ m := by
  induction m with
  | nil => simp [mapGet] at h
  | cons hd tl ih =>
    obtain ⟨k', v'⟩ := hd
    by_cases hk : k' = k
    · subst hk
      simp [mapGet] at h
      subst h
      exact List.mem_cons_self _ _
    · simp [mapGet, hk] at h
      exact List.mem_cons_of_mem _ (ih h)

theorem mapGet_mapSet_self (m : List (String × GameState)) (k : String) (v : GameState) :
    mapGet (mapSet m k v) k = some v := by
  induction m with
  | nil => simp [mapSet, mapGet]
  | cons hd tl ih =>
    obtain ⟨k', v'⟩ := hd
    by_cases hk : k' = k
    · subst hk; simp [mapSet, mapGet]
    · simp [mapSet, mapGet, hk, ih]

theorem mapGet_mapSet_ne (m : List (String × GameState)) {k k' : String} (v : GameState)
    (h : k ≠ k') : mapGet (mapSet m k v) k' = mapGet m k' := by
  induction m with
  | nil => simp [mapSet, mapGet, h]
  | cons hd tl ih =>
    obtain ⟨k0, v0⟩ := hd
    by_cases hk : k0 = k
    · subst hk; simp [mapSet, mapGet, h]
    · simp [mapSet, mapGet, hk, ih]

theorem mapSet_eq_of_get {m : List (String × GameState)} {k : String} {v : GameState}
    (h : mapGet m k = some v) : mapSet m k v = m := by
  induction m with
  | nil => simp [mapGet] at h
  | cons hd tl ih =>
    obtain ⟨k', v'⟩ := hd
    by_cases hk : k' = k
    · subst hk
      simp [mapGet] at h
      simp [mapSet, h]
    · simp [mapGet, hk] at h
      simp [mapSet, hk, ih h]

theorem mapGet_mapDelete_self (m : List (String × GameState)) (k : String) :
    mapGet (mapDelete m k) k = none := by
  induction m with
  | nil => simp [mapDelete, mapGet]
  | cons hd tl ih =>
    obtain ⟨k', v'⟩ := hd
    by_cases hk : k' = k
    · subst hk; simpa [mapDelete, mapGet] using ih
    · simpa [mapDelete, mapGet, hk] using ih

theorem mem_mapSet {m : List (String × GameState)} {k : String} {v : GameState}
    {x : String × GameState} (h : x ∈ mapSet m k v) : x = (k, v) ∨ x ∈ m := by
  induction m with
  | nil => simpa [mapSet] using h
  | cons hd tl ih =>
    obtain ⟨k', v'⟩ := hd
    by_cases hk : k' = k
    · subst hk
      simp [mapSet] at h
      rcases h with h | h
      · exact Or.inl h
      · exact Or.inr (List.mem_cons_of_mem _ h)
    · simp [mapSet, hk] at h
      rcases h with h | h
      · exact Or.inr (by simp [h])
      · rcases ih h with h1 | h1
        · exact Or.inl h1
        · exact Or.inr (List.mem_cons_of_mem _ h1)

theorem mem_mapDelete {m : List (String × GameState)} {k : String}
    {x : String × GameState} (h : x ∈ mapDelete m k) : x ∈ m :=
  List.mem_of_mem_filter h

/-! ### The registry invariant of claim C1 -/

/-- A single session respects capacity and username uniqueness. -/
def GoodGame (g : GameState) : Prop :=
  g.players.length ≤ MAX_PLAYERS ∧ (g.players.map Player.username).Nodup

instance : DecidablePred GoodGame := fun g => by
  unfold GoodGame; infer_instance

/-- Every session in the registry respects the invariant. -/
def GoodGames (m : List (String × GameState)) : Prop :=
  ∀ kg ∈ m, GoodGame kg.2

instance : DecidablePred GoodGames := fun m => by
  unfold GoodGames; infer_instance

theorem goodGames_mapSet {m : List (String × GameState)} {k : String} {v : GameState}
    (hm : GoodGames m) (hv : GoodGame v) : GoodGames (mapSet m k v) := by
  intro kg hkg
  rcases mem_mapSet hkg with h | h
  · subst h; exact hv
  · exact hm _ h

theorem goodGames_mapDelete {m : List (String × GameState)} {k : String}
    (hm : GoodGames m) : GoodGames (mapDelete m k) :=
  fun _ hkg => hm _ (mem_mapDelete hkg)

theorem goodGame_filter {g : GameState} (hg : GoodGame g) (b : Bool) (f : Player → Bool) :
    GoodGame ⟨b, g.players.filter f⟩ := by
  constructor
  · exact le_trans (List.length_filter_le _ _) hg.1
  · exact hg.2.sublist ((List.filter_sublist _).map _)

theorem goodGame_append {g : GameState} (hg : GoodGame g)
    (hlen : g.players.length < MAX_PLAYERS) {u : String}
    (hu : ∀ p ∈ g.players, p.username ≠ u) (b : Bool) (c : ConnId) :
    GoodGame ⟨b, g.players ++ [⟨c, u⟩]⟩ := by
  constructor
  · simpa using hlen
  · rw [List.map_append]
    simp only [List.map_cons, List.map_nil]
    rw [List.nodup_append]
    refine ⟨hg.2, List.nodup_singleton u, ?_⟩
    intro x hx
    simp only [List.mem_map] at hx
    obtain ⟨p, hp, rfl⟩ := hx
    simp [hu p hp]

/-! ### Guard extraction lemmas -/

theorem isGameNameValid_some {o : Option String} (h : isGameNameValid o = true) :
    ∃ s, o = some s ∧ s.length ≤ MAX_GAME_NAME_LENGTH := by
  cases o with
  | none => simp [isGameNameValid] at h
  | some s => exact ⟨s, rfl, by simpa [isGameNameValid] using h⟩

theorem isUsernameValid_some {o : Option String} (h : isUsernameValid o = true) :
    ∃ s, o = some s ∧ s.length ≤ MAX_USERNAME_LENGTH := by
  cases o with
  | none => simp [isUsernameValid] at h
  | some s => exact ⟨s, rfl, by simpa [isUsernameValid] using h⟩

theorem validatePlayerData_true {c : ConnId} {ctx : Ctx} {game : Option GameState}
    (h : (validatePlayerData c ctx game).1 = true) :
    isGameNameValid ctx.gameName = true ∧ isUsernameValid ctx.username = true ∧
      ∀ g, game = some g →
        g.players.any (fun p => some p.username == ctx.username) = false := by
  unfold validatePlayerData at h
  by_cases h1 : isGameNameValid ctx.gameName
  · by_cases h2 : isUsernameValid ctx.username
    · refine ⟨h1, h2, ?_⟩
      intro g hg
      subst hg
      simp only [h1, h2, Bool.not_true, Bool.false_eq_true, if_false] at h
      by_cases h3 : g.players.any (fun p => some p.username == ctx.username)
      · simp [h3] at h
      · simpa using h3
    · simp [h1, h2] at h
  · simp [h1] at h

theorem validateGameAvailability_true {c : ConnId} {game : Option GameState}
    (h : (validateGameAvailability c game).1 = true) :
    ∀ g, game = some g → g.players.length < MAX_PLAYERS := by
  intro g hg
  subst hg
  unfold validateGameAvailability at h
  by_cases h1 : MAX_PLAYERS ≤ g.players.length
  · simp [h1] at h
  · omega

theorem gamesGetOpt_good {st : ServerState} {o : Option String} {g : GameState}
    (hst : GoodGames st.games) (h : gamesGetOpt st o = some g) : GoodGame g := by
  cases o with
  | none => simp [gamesGetOpt] at h
  | some k => exact hst _ (mapGet_mem h)

/-! ### Preservation of the invariant by every operation -/

theorem addAndSubscribe_good {st : ServerState} {game : Option GameState} {c : ConnId}
    {ctx : Ctx} (hst : GoodGames st.games)
    (husr : isUsernameValid ctx.username = true)
    (hgame : ∀ g, game = some g → GoodGame g ∧
      g.players.any (fun p => some p.username == ctx.username) = false ∧
      g.players.length < MAX_PLAYERS) :
    GoodGames (addAndSubscribePlayerToGame st game c ctx).1.games := by
  obtain ⟨u, hu, _⟩ := isUsernameValid_some husr
  unfold addAndSubscribePlayerToGame
  cases game with
  | none =>
    apply goodGames_mapSet hst
    exact ⟨by simp [MAX_PLAYERS], by simp⟩
  | some g =>
    obtain ⟨hg, hany, hlen⟩ := hgame g rfl
    apply goodGames_mapSet hst
    show GoodGame ⟨g.hasStarted, g.players ++ [⟨c, ctx.username.getD "undefined"⟩]⟩
    rw [hu]
    refine goodGame_append hg hlen ?_ _ _
    intro p hp heq
    rw [List.any_eq_false] at hany
    exact hany p hp (by simp [hu, heq])

theorem tryJoin_good {st : ServerState} {c : ConnId} {ctx : Ctx}
    (hst : GoodGames st.games) : GoodGames (tryJoin st c ctx).1.games := by
  unfold tryJoin
  by_cases h1 : (validatePlayerData c ctx (gamesGetOpt st ctx.gameName)).1
  · by_cases h2 : (validateGameAvailability c (gamesGetOpt st ctx.gameName)).1
    · simp only [h1, h2, if_true]
      obtain ⟨_, husr, hntaken⟩ := validatePlayerData_true h1
      have hcap := validateGameAvailability_true h2
      exact addAndSubscribe_good hst husr (fun g hg =>
        ⟨gamesGetOpt_good hst hg, hntaken g hg, hcap g hg⟩)
    · simp only [h1, if_true]
      simp only [h2, Bool.false_eq_true, if_false]
      exact hst
  · simp only [h1, Bool.false_eq_true, if_false]
    exact hst

theorem removePlayer_good {st : ServerState} {loc : Option String} {g : GameState}
    {c : ConnId} {reason : String} (hst : GoodGames st.games) (hg : GoodGame g) :
    GoodGames (removePlayerFromGame st loc g c reason).1.games ∧
      GoodGame (removePlayerFromGame st loc g c reason).2.1 := by
  unfold removePlayerFromGame
  have hg1 : GoodGame ⟨g.hasStarted,
      g.players.filter (fun p => !(some p.username == (ctxGet st c).username))⟩ :=
    goodGame_filter hg _ _
  have hgames1 : GoodGames (match loc with
      | some k => mapSet st.games k ⟨g.hasStarted,
          g.players.filter (fun p => !(some p.username == (ctxGet st c).username))⟩
      | none => st.games) := by
    cases loc with
    | some k => exact goodGames_mapSet hst hg1
    | none => exact hst
  cases hs : g.hasStarted with
  | true =>
    rw [hs] at hg1 hgames1
    simp only [hs, if_true]
    refine ⟨?_, hg1⟩
    cases hgn : (ctxGet st c).gameName with
    | some k => exact goodGames_mapDelete hgames1
    | none => exact hgames1
  | false =>
    rw [hs] at hg1 hgames1
    simp only [hs, Bool.false_eq_true, if_false]
    exact ⟨hgames1, hg1⟩

theorem handleMessage_good {st : ServerState} {c : ConnId} {msg : String} {now : Int}
    (hst : GoodGames st.games) : GoodGames (handleMessage st c msg now).1.games := by
  unfold handleMessage
  by_cases he1 : (jsSplit msg '.').headD "" == GameEvent.Join.str
  · simp only [he1, if_true]
    cases hd : (jsSplit msg '.').get? 1 with
    | none => exact hst
    | some d =>
      refine tryJoin_good ?_
      exact hst
  · simp only [he1, Bool.false_eq_true, if_false]
    by_cases he2 : (jsSplit msg '.').headD "" == GameEvent.Leave.str
    · simp only [he2, if_true]
      cases hg : gamesGetOpt st (ctxGet st c).gameName with
      | none => exact hst
      | some g =>
        by_cases hin : isPlayerInGame g (ctxGet st c).username
        · simp only [hin, if_true]
          exact (removePlayer_good hst (gamesGetOpt_good hst hg)).1
        · simp only [hin, Bool.false_eq_true, if_false]
          exact hst
    · simp only [he2, Bool.false_eq_true, if_false]
      by_cases he3 : (jsSplit msg '.').headD "" == GameEvent.GameAction.str
      · simp only [he3, if_true]
        cases hg : gamesGetOpt st (ctxGet st c).gameName with
        | none => exact hst
        | some g =>
          by_cases hin : isPlayerInGame g (ctxGet st c).username
          · simp only [hin, if_true]
            have hgood := gamesGetOpt_good hst hg
            by_cases hcond : (!g.hasStarted && decide (2 ≤ g.players.length)
                && ((ctxGet st c).username == some (g.players.headD ⟨0, ""⟩).username))
            · simp only [hcond, if_true]
              have : GoodGames (mapSet st.games ((ctxGet st c).gameName.getD "undefined")
                  { g with hasStarted := true }) :=
                goodGames_mapSet hst ⟨hgood.1, hgood.2⟩
              split <;> exact this
            · simp only [hcond, Bool.false_eq_true, if_false]
              have : GoodGames (mapSet st.games ((ctxGet st c).gameName.getD "undefined") g) :=
                goodGames_mapSet hst hgood
              split <;> exact this
          · simp only [hin, Bool.false_eq_true, if_false]
            exact hst
      · simp only [he3, Bool.false_eq_true, if_false]
        by_cases he4 : (jsSplit msg '.').headD "" == GameEvent.GameMessage.str
        · simp only [he4, if_true]
          cases hg : gamesGetOpt st (ctxGet st c).gameName with
          | none => exact hst
          | some g =>
            by_cases hin : isPlayerInGame g (ctxGet st c).username
            · simp only [hin, if_true]; exact hst
            · simp only [hin, Bool.false_eq_true, if_false]; exact hst
        · simp only [he4, Bool.false_eq_true, if_false]
          exact hst

theorem handleOpen_good {st : ServerState} {c : ConnId} {g u : Option String} {now : Int}
    (hst : GoodGames st.games) : GoodGames (handleOpen st c g u now).1.games := by
  unfold handleOpen
  refine tryJoin_good ?_
  exact hst

theorem handleClose_good {st : ServerState} {c : ConnId}
    (hst : GoodGames st.games) : GoodGames (handleClose st c).1.games := by
  simp only [handleClose]
  cases hg : gamesGetOpt st (ctxGet st c).gameName with
  | none => exact hst
  | some g =>
    have hgood := gamesGetOpt_good hst hg
    by_cases hin : isPlayerInGame g (ctxGet st c).username
    · simp only [hin, if_true]
      have h1 := (@removePlayer_good st ((ctxGet st c).gameName) g c "PLAYER_LEFT"
        hst hgood).1
      split
      · cases hgn : (ctxGet st c).gameName with
        | some k => rw [hgn] at h1; exact goodGames_mapDelete h1
        | none => rw [hgn] at h1; exact h1
      · exact h1
    · simp only [hin, Bool.false_eq_true, if_false]
      split
      · cases hgn : (ctxGet st c).gameName with
        | some k => exact goodGames_mapDelete hst
        | none => exact hst
      · exact hst

theorem handlePong_good {st : ServerState} {c : ConnId} {now : Int}
    (hst : GoodGames st.games) : GoodGames (handlePong st c now).1.games := by
  simp only [handlePong]
  cases gamesGetOpt st (ctxGet st c).gameName with
  | none => exact hst
  | some g =>
    by_cases hin : g.players.any (fun p => p.ws == c)
    · simp only [hin, if_true]; exact hst
    · simp only [hin, Bool.false_eq_true, if_false]; exact hst

theorem sweepStep_good {now : Int} {gkey : String}
    {acc : ServerState × GameState × Bool} {p : Player}
    (hst : GoodGames acc.1.games) (hg : GoodGame acc.2.1) :
    GoodGames (sweepStep now gkey acc p).1.1.games ∧
      GoodGame (sweepStep now gkey acc p).1.2.1 := by
  unfold sweepStep
  by_cases ht : now - PING_INTERVAL - (ctxGet acc.1 p.ws).lastPong > PING_INTERVAL
  · simp only [ht, if_true]
    exact removePlayer_good hst hg
  · simp only [ht, if_false]
    exact ⟨hst, hg⟩

theorem sweepFold_good (now : Int) (gkey : String) (ps : List Player) :
    ∀ (acc : (ServerState × GameState × Bool) × List Effect),
      GoodGames acc.1.1.games → GoodGame acc.1.2.1 →
      GoodGames ((ps.foldl (sweepFoldStep now gkey) acc).1.1.games) := by
  induction ps with
  | nil => intro acc h _; exact h
  | cons p ps ih =>
    intro acc h hg
    simp only [List.foldl_cons]
    have := @sweepStep_good now gkey acc.1 p h hg
    exact ih _ this.1 this.2

theorem sweepGame_good {now : Int} {st : ServerState} {gkey : String}
    (hst : GoodGames st.games) : GoodGames (sweepGame now st gkey).1.games := by
  unfold sweepGame
  cases hg : mapGet st.games gkey with
  | none => exact hst
  | some g => exact sweepFold_good now gkey g.players _ hst (hst _ (mapGet_mem hg))

theorem sweepTickFold_good (now : Int) (ks : List String) :
    ∀ (acc : ServerState × List Effect), GoodGames acc.1.games →
      GoodGames ((ks.foldl (tickFoldStep now) acc).1.games) := by
  induction ks with
  | nil => intro acc h; exact h
  | cons k ks ih =>
    intro acc h
    simp only [List.foldl_cons]
    exact ih _ (sweepGame_good h)

theorem sweepTick_good {st : ServerState} {now : Int}
    (hst : GoodGames st.games) : GoodGames (sweepTick st now).1.games := by
  unfold sweepTick
  exact sweepTickFold_good now _ _ hst

theorem applyOp_good {st : ServerState} (op : Op)
    (hst : GoodGames st.games) : GoodGames (applyOp st op).1.games := by
  cases op with
  | openConn c g u now => exact handleOpen_good hst
  | msgEvt c raw now => exact handleMessage_good hst
  | pongEvt c now => exact handlePong_good hst
  | closeEvt c => exact handleClose_good hst
  | sweepEvt now => exact sweepTick_good hst

/-! ### Helper lemmas about removal and joining -/

theorem filter_eq_self_of_not_in {g : GameState} {u : Option String}
    (h : isPlayerInGame g u = false) :
    g.players.filter (fun p => !(some p.username == u)) = g.players := by
  apply List.filter_eq_self.2
  intro p hp
  simp only [isPlayerInGame, List.any_eq_false] at h
  simpa using h p hp

/-! ## Claim C1 -/

/-- C1: in every state reachable by any sequence of operations (open,
GAMEJOIN, GAMELEAVE, GAMEACTION, GAMEMSG, close, pong, liveness sweep),
every session in the registry has at most `MAX_PLAYERS = 5` members and
the usernames of its members are pairwise distinct. -/
theorem C1_registry_invariant (st : ServerState) (h : Reachable st) :
    GoodGames st.games := by
  induction h with
  | init => intro kg hkg; simp [initState] at hkg
  | step op _ ih => exact applyOp_good op ih

/-- Witness: the invariant holds at a concrete reachable state with one
joined member. -/
theorem C1_registry_invariant_witness :
    GoodGames ((applyOp initState (.openConn 0 (some "g") (some "a") 0)).1.games) :=
  C1_registry_invariant _ (Reachable.step _ Reachable.init)

/-! ## Claim C2 -/

/-- C2 counterexample: connection 0 joins session `g` at open, then sends
`GAMELEAVE`.  The removal empties the session, yet the lookup still finds
it in the registry (with zero members) — the claim says the session is no
longer present after the operation that removed the last member. -/
theorem C2_counterexample :
    mapGet ((applyOp (applyOp initState (.openConn 0 (some "g") (some "a") 0)).1
      (.msgEvt 0 "GAMELEAVE" 1)).1).games "g" = some ⟨false, []⟩ := by rfl

/-- C2 amended: a transport close whose removal leaves the member list
empty deletes the session in the same operation; a `GAMELEAVE` that
empties a not-yet-started session instead leaves the empty session in the
registry (it is only reaped by the leaver's later transport close); since
that surviving record has `hasStarted = false`, a subsequent valid join
under the same name still behaves as a fresh lobby: the joiner becomes
the sole member of a session with `hasStarted = false`. -/
theorem C2_empty_session_amended :
    (∀ (st : ServerState) (c : ConnId) (k : String) (g : GameState),
      (ctxGet st c).gameName = some k →
      mapGet st.games k = some g →
      (g.players.filter (fun p => !(some p.username == (ctxGet st c).username))).length = 0 →
      mapGet (handleClose st c).1.games k = none) ∧
    (∀ (st : ServerState) (c : ConnId) (k u : String) (t : Int) (ps : List Player) (now : Int),
      ctxGet st c = ⟨some k, some u, t⟩ →
      mapGet st.games k = some ⟨false, ps⟩ →
      isPlayerInGame ⟨false, ps⟩ (some u) = true →
      ps.filter (fun p => !(some p.username == some u)) = [] →
      mapGet (handleMessage st c "GAMELEAVE" now).1.games k = some ⟨false, []⟩) ∧
    (∀ (st : ServerState) (c : ConnId) (k u : String) (t : Int),
      mapGet st.games k = some ⟨false, []⟩ →
      isGameNameValid (some k) = true →
      isUsernameValid (some u) = true →
      mapGet (tryJoin st c ⟨some k, some u, t⟩).1.games k = some ⟨false, [⟨c, u⟩]⟩) := by
  refine ⟨?_, ?_, ?_⟩
  · intro st c k g hgn hget hempty
    simp only [handleClose, hgn, gamesGetOpt, hget]
    by_cases hin : isPlayerInGame g (ctxGet st c).username
    · simp only [hin, if_true]
      simp only [removePlayerFromGame, hgn]
      have hfil : (g.players.filter
          (fun p => !(some p.username == (ctxGet st c).username))) = [] :=
        List.length_eq_zero.1 hempty
      cases hs : g.hasStarted with
      | true =>
        simp only [hs, if_true, hfil]
        simp only [List.length_nil]
        norm_num
        exact mapGet_mapDelete_self _ _
      | false =>
        simp only [hs, Bool.false_eq_true, if_false, hfil]
        simp only [List.length_nil]
        norm_num
        exact mapGet_mapDelete_self _ _
    · simp only [hin, Bool.false_eq_true, if_false]
      have hall : g.players = [] := by
        have := filter_eq_self_of_not_in (by simpa using hin)
        rw [this] at hempty
        exact List.length_eq_zero.1 hempty
      simp only [hall, List.length_nil]
      norm_num
      exact mapGet_mapDelete_self _ _
  · intro st c k u t ps now hctx hget hin hfil
    have he : jsSplit "GAMELEAVE" '.' = ["GAMELEAVE"] := by decide
    simp only [handleMessage, he, List.headD_cons]
    have e1 : (("GAMELEAVE" : String) == "GAMEJOIN") = false := by decide
    simp only [GameEvent.str, e1, Bool.false_eq_true, if_false, beq_self_eq_true, if_true,
      hctx, gamesGetOpt, hget]
    simp only [hin, if_true]
    simp only [removePlayerFromGame, hctx, hfil]
    simp only [Bool.false_eq_true, if_false]
    exact mapGet_mapSet_self _ _ _
  · intro st c k u t hget hname huser
    simp only [tryJoin, gamesGetOpt, hget]
    simp only [validatePlayerData, hname, huser, Bool.not_true, Bool.false_eq_true, if_false,
      List.any_nil]
    simp only [validateGameAvailability, List.length_nil]
    norm_num [MAX_PLAYERS]
    simp only [addAndSubscribePlayerToGame, Option.getD_some, List.nil_append]
    exact mapGet_mapSet_self _ _ _

/-- Witness for the amended C2 at the concrete trace of the
counterexample: the emptied lobby session survives `GAMELEAVE` and a
fresh join under the same name starts from `hasStarted = false`. -/
theorem C2_empty_session_amended_witness :
    mapGet ((handleMessage (applyOp initState (.openConn 0 (some "g") (some "a") 0)).1
      0 "GAMELEAVE" 1).1).games "g" = some ⟨false, []⟩ :=
  C2_empty_session_amended.2.1
    (applyOp initState (.openConn 0 (some "g") (some "a") 0)).1
    0 "g" "a" 0 [⟨0, "a"⟩] 1 (by decide) (by decide) (by decide) (by decide)

/-! ## Claim C3 -/

/-- C3 counterexample: a `GAMEJOIN` with an *empty* game name is accepted
(the session keyed by `""` is created and `GAMEJOIN_ACCEPT` is broadcast),
and likewise a `GAMEJOIN` with an *empty* username is accepted, whereas
the claim requires guards (1)/(2) to fail with `GAME_NAME_INVALID` /
`USERNAME_INVALID` on empty input.  The source validators only check
definedness and the 32/26-character caps. -/
theorem C3_counterexample :
    (applyOp initState (.msgEvt 0 "GAMEJOIN.,a" 0)).1.games
        = [("", ⟨false, [⟨0, "a"⟩]⟩)] ∧
      (applyOp initState (.msgEvt 0 "GAMEJOIN.,a" 0)).2
        = [Effect.publishAll "" "GAMEJOIN_ACCEPT.a"] ∧
      (applyOp initState (.msgEvt 0 "GAMEJOIN.g," 0)).1.games
        = [("g", ⟨false, [⟨0, ""⟩]⟩)] ∧
      (applyOp initState (.msgEvt 0 "GAMEJOIN.g," 0)).2
        = [Effect.publishAll "g" "GAMEJOIN_ACCEPT."] :=
  ⟨rfl, rfl, rfl, rfl⟩

/-- C3 amended: for every join attempt (the shared validation-and-add path
run by both the explicit `GAMEJOIN` branch and the join-at-open), the four
guards run in the fixed order (1) game name defined and at most 32
characters — emptiness is NOT rejected, (2) username defined and at most
26 characters — emptiness is NOT rejected, (3) username not already in
the target session, (4) target session below `MAX_PLAYERS`; the first
failing guard sends the corresponding `GAMEJOIN_DENY` and nothing later
fires; if all pass, the member is appended (or the session created). -/
theorem C3_join_validation_amended :
    (∀ (st : ServerState) (c : ConnId) (gn u : Option String) (t : Int),
      isGameNameValid gn = false →
      tryJoin st c ⟨gn, u, t⟩ = (st, [.send c "GAMEJOIN_DENY.GAME_NAME_INVALID"])) ∧
    (∀ (st : ServerState) (c : ConnId) (gn u : Option String) (t : Int),
      isGameNameValid gn = true → isUsernameValid u = false →
      tryJoin st c ⟨gn, u, t⟩ = (st, [.send c "GAMEJOIN_DENY.USERNAME_INVALID"])) ∧
    (∀ (st : ServerState) (c : ConnId) (gn u : Option String) (t : Int) (g : GameState),
      isGameNameValid gn = true → isUsernameValid u = true →
      gamesGetOpt st gn = some g → isPlayerInGame g u = true →
      tryJoin st c ⟨gn, u, t⟩ = (st, [.send c "GAMEJOIN_DENY.USERNAME_TAKEN"])) ∧
    (∀ (st : ServerState) (c : ConnId) (gn u : Option String) (t : Int) (g : GameState),
      isGameNameValid gn = true → isUsernameValid u = true →
      gamesGetOpt st gn = some g → isPlayerInGame g u = false →
      MAX_PLAYERS ≤ g.players.length →
      tryJoin st c ⟨gn, u, t⟩ = (st, [.send c "GAMEJOIN_DENY.GAME_FULL"])) ∧
    (∀ (st : ServerState) (c : ConnId) (k uu : String) (t : Int) (g : GameState),
      isGameNameValid (some k) = true → isUsernameValid (some uu) = true →
      gamesGetOpt st (some k) = some g → isPlayerInGame g (some uu) = false →
      g.players.length < MAX_PLAYERS →
      (tryJoin st c ⟨some k, some uu, t⟩).1.games
        = mapSet st.games k { g with players := g.players ++ [⟨c, uu⟩] }) ∧
    (∀ (st : ServerState) (c : ConnId) (k uu : String) (t : Int),
      isGameNameValid (some k) = true → isUsernameValid (some uu) = true →
      gamesGetOpt st (some k) = none →
      (tryJoin st c ⟨some k, some uu, t⟩).1.games
        = mapSet st.games k ⟨false, [⟨c, uu⟩]⟩) := by
  refine ⟨?_, ?_, ?_, ?_, ?_, ?_⟩
  · intro st c gn u t h1
    simp [tryJoin, validatePlayerData, h1, encodeMessage, GameEvent.str]
  · intro st c gn u t h1 h2
    simp [tryJoin, validatePlayerData, h1, h2, encodeMessage, GameEvent.str]
  · intro st c gn u t g h1 h2 hg hin
    have hex : ∃ x ∈ g.players, some x.username = u := by
      simpa [isPlayerInGame, List.any_eq_true] using hin
    simp [tryJoin, validatePlayerData, h1, h2, hg, hex, encodeMessage, GameEvent.str]
  · intro st c gn u t g h1 h2 hg hin hfull
    have hany : g.players.any (fun p => some p.username == u) = false := hin
    simp [tryJoin, validatePlayerData, validateGameAvailability, h1, h2, hg, hany, hfull]
  · intro st c k uu t g h1 h2 hg hin hcap
    simp only [isPlayerInGame, List.any_eq_false] at hin
    have hnex : ¬∃ x ∈ g.players, x.username = uu := by
      rintro ⟨p, hp, he⟩
      have := hin p hp
      simp [he] at this
    have hncap : ¬(MAX_PLAYERS ≤ g.players.length) := by omega
    simp [tryJoin, validatePlayerData, validateGameAvailability,
      addAndSubscribePlayerToGame, h1, h2, hg, hnex, hncap]
  · intro st c k uu t h1 h2 hg
    simp [tryJoin, validatePlayerData, validateGameAvailability,
      addAndSubscribePlayerToGame, h1, h2, hg]

/-- Witness for the amended C3: a 33-character name is denied with
`GAME_NAME_INVALID` on the untouched initial state. -/
theorem C3_join_validation_amended_witness :
    tryJoin initState 0 ⟨some "xxxxxxxxxxxxxxxxxxxxxxxxxxxxxxxxx", some "a", 0⟩
      = (initState, [.send 0 "GAMEJOIN_DENY.GAME_NAME_INVALID"]) :=
  C3_join_validation_amended.1 initState 0
    (some "xxxxxxxxxxxxxxxxxxxxxxxxxxxxxxxxx") (some "a") 0 (by decide)

/-! ## Claim C4 -/

/-- C4: for a `GAMEACTION` from a member of a not-yet-started session,
`hasStarted` flips to true exactly when the sender is the first member and
the session has at least two members, and the action is then relayed; any
other `GAMEACTION` while not started is answered with
`GAMEACTION_DENY.GAME_NOT_STARTED` sent to the sender only, with no relay
and no registry change; once started, the registry is unchanged (repeats
are idempotent) and the action is relayed. -/
theorem C4_game_start_semantics
    (st : ServerState) (c : ConnId) (raw d : String) (now t : Int) (k u : String)
    (g : GameState)
    (hparse : jsSplit raw '.' = ["GAMEACTION", d])
    (hctx : ctxGet st c = ⟨some k, some u, t⟩)
    (hg : mapGet st.games k = some g)
    (hin : isPlayerInGame g (some u) = true) :
    (g.hasStarted = false →
      ((2 ≤ g.players.length ∧ (g.players.headD ⟨0, ""⟩).username = u →
        mapGet (handleMessage st c raw now).1.games k = some { g with hasStarted := true } ∧
        (handleMessage st c raw now).2 = [.publishExcl c k (encodeMessage .GameAction d)]) ∧
      (¬(2 ≤ g.players.length ∧ (g.players.headD ⟨0, ""⟩).username = u) →
        (handleMessage st c raw now).1.games = st.games ∧
        (handleMessage st c raw now).2
          = [.send c (encodeMessage .GameActionDeny "GAME_NOT_STARTED")]))) ∧
    (g.hasStarted = true →
      (handleMessage st c raw now).1.games = st.games ∧
      (handleMessage st c raw now).2 = [.publishExcl c k (encodeMessage .GameAction d)]) := by
  have e1 : (("GAMEACTION" : String) == "GAMEJOIN") = false := by decide
  have e2 : (("GAMEACTION" : String) == "GAMELEAVE") = false := by decide
  have e3 : (("GAMEACTION" : String) == "GAMEACTION") = true := by decide
  constructor
  · intro hstart
    constructor
    · intro hcond
      have hbool : (!g.hasStarted && decide (2 ≤ g.players.length)
          && ((some u : Option String) == some (g.players.headD ⟨0, ""⟩).username)) = true := by
        rw [hstart, hcond.2]
        simp [hcond.1]
      simp only [handleMessage, hparse, List.headD_cons, GameEvent.str, e1, e2, e3,
        Bool.false_eq_true, if_false, if_true, List.get?_cons_succ, List.get?_cons_zero,
        hctx, gamesGetOpt, hg, hin, hbool, Option.getD_some]
      constructor
      · exact mapGet_mapSet_self _ _ _
      · rfl
    · intro hcond
      have hbool : (!g.hasStarted && decide (2 ≤ g.players.length)
          && ((some u : Option String) == some (g.players.headD ⟨0, ""⟩).username)) = false := by
        rw [hstart]
        by_cases hl : 2 ≤ g.players.length
        · have hne : ¬ u = (g.players.headD ⟨0, ""⟩).username :=
            fun he => hcond ⟨hl, he.symm⟩
          simp [hl]
          simpa using hne
        · simp [hl]
      simp only [handleMessage, hparse, List.headD_cons, GameEvent.str, e1, e2, e3,
        Bool.false_eq_true, if_false, if_true, List.get?_cons_succ, List.get?_cons_zero,
        hctx, gamesGetOpt, hg, hin, hbool, Option.getD_some]
      simp only [hstart, Bool.not_false, if_true]
      exact ⟨mapSet_eq_of_get hg, trivial⟩
  · intro hstart
    have hbool : (!g.hasStarted && decide (2 ≤ g.players.length)
        && ((some u : Option String) == some (g.players.headD ⟨0, ""⟩).username)) = false := by
      simp [hstart]
    simp only [handleMessage, hparse, List.headD_cons, GameEvent.str, e1, e2, e3,
      Bool.false_eq_true, if_false, if_true, List.get?_cons_succ, List.get?_cons_zero,
      hctx, gamesGetOpt, hg, hin, hbool, Option.getD_some]
    simp only [hstart, Bool.not_true, Bool.false_eq_true, if_false]
    exact ⟨mapSet_eq_of_get hg, trivial⟩

/-- Witness for C4: in a concrete two-member lobby, the owner's
`GAMEACTION.foo` flips `hasStarted` and is relayed. -/
theorem C4_game_start_semantics_witness :
    mapGet ((handleMessage
      ⟨[("g", ⟨false, [⟨0, "a"⟩, ⟨1, "b"⟩]⟩)],
       [(0, ⟨some "g", some "a", 0⟩), (1, ⟨some "g", some "b", 0⟩)],
       [(0, "g"), (1, "g")]⟩
      0 "GAMEACTION.foo" 5).1).games "g"
      = some ⟨true, [⟨0, "a"⟩, ⟨1, "b"⟩]⟩ := by
  have h := C4_game_start_semantics
    ⟨[("g", ⟨false, [⟨0, "a"⟩, ⟨1, "b"⟩]⟩)],
     [(0, ⟨some "g", some "a", 0⟩), (1, ⟨some "g", some "b", 0⟩)],
     [(0, "g"), (1, "g")]⟩
    0 "GAMEACTION.foo" "foo" 5 0 "g" "a" ⟨false, [⟨0, "a"⟩, ⟨1, "b"⟩]⟩
    (by decide) (by decide) (by decide) (by decide)
  exact ((h.1 rfl).1 ⟨by decide, rfl⟩).1

/-! ## Claim C5 -/

/-- C5: whenever a member leaves a session with `hasStarted = true` — via a
`GAMELEAVE` message, a transport close, or a liveness eviction — a
`GAMEEND` with reason `PLAYER_LEFT` (resp. `PLAYER_TIMEOUT` for eviction)
is published to the session topic and the session is deleted from the
registry within the same operation. -/
theorem C5_started_teardown :
    (∀ (st : ServerState) (c : ConnId) (raw : String) (now t : Int) (k u : String)
        (g : GameState),
      (jsSplit raw '.').headD "" = "GAMELEAVE" →
      ctxGet st c = ⟨some k, some u, t⟩ →
      mapGet st.games k = some g →
      g.hasStarted = true →
      isPlayerInGame g (some u) = true →
      mapGet (handleMessage st c raw now).1.games k = none ∧
        Effect.publishExcl c k (encodeMessage .GameEnd "PLAYER_LEFT")
          ∈ (handleMessage st c raw now).2) ∧
    (∀ (st : ServerState) (c : ConnId) (t : Int) (k u : String) (g : GameState),
      ctxGet st c = ⟨some k, some u, t⟩ →
      mapGet st.games k = some g →
      g.hasStarted = true →
      isPlayerInGame g (some u) = true →
      mapGet (handleClose st c).1.games k = none ∧
        Effect.publishExcl c k (encodeMessage .GameEnd "PLAYER_LEFT")
          ∈ (handleClose st c).2) ∧
    (∀ (st : ServerState) (g : GameState) (gkey : String) (inMap : Bool) (p : Player)
        (now t : Int) (k u : String),
      ctxGet st p.ws = ⟨some k, some u, t⟩ →
      g.hasStarted = true →
      now - PING_INTERVAL - t > PING_INTERVAL →
      mapGet (sweepStep now gkey (st, g, inMap) p).1.1.games k = none ∧
        Effect.publishExcl p.ws k (encodeMessage .GameEnd "PLAYER_TIMEOUT")
          ∈ (sweepStep now gkey (st, g, inMap) p).2) := by
  refine ⟨?_, ?_, ?_⟩
  · intro st c raw now t k u g hevent hctx hg hs hin
    have e1 : (("GAMELEAVE" : String) == "GAMEJOIN") = false := by decide
    have e2 : (("GAMELEAVE" : String) == "GAMELEAVE") = true := by decide
    simp only [handleMessage, hevent, GameEvent.str, e1, e2, Bool.false_eq_true, if_false,
      if_true, hctx, gamesGetOpt, hg, hin]
    simp only [removePlayerFromGame, hctx, Option.getD_some, hs, if_true]
    exact ⟨mapGet_mapDelete_self _ _, by simp⟩
  · intro st c t k u g hctx hg hs hin
    simp only [handleClose, hctx, gamesGetOpt, hg, hin, if_true]
    simp only [removePlayerFromGame, hctx, Option.getD_some, hs, if_true]
    constructor
    · split
      · exact mapGet_mapDelete_self _ _
      · exact mapGet_mapDelete_self _ _
    · simp
  · intro st g gkey inMap p now t k u hctx hs hthr
    simp only [sweepStep, hctx, hthr, if_true]
    simp only [removePlayerFromGame, hctx, Option.getD_some, hs, if_true]
    exact ⟨mapGet_mapDelete_self _ _, by simp⟩

/-- Witness for C5: bob closing his transport in a concrete started
two-member session ends and removes the session. -/
theorem C5_started_teardown_witness :
    mapGet ((handleClose
      ⟨[("g", ⟨true, [⟨0, "a"⟩, ⟨1, "b"⟩]⟩)],
       [(0, ⟨some "g", some "a", 0⟩), (1, ⟨some "g", some "b", 0⟩)],
       [(0, "g"), (1, "g")]⟩ 1).1).games "g" = none ∧
      Effect.publishExcl 1 "g" (encodeMessage .GameEnd "PLAYER_LEFT")
        ∈ (handleClose
      ⟨[("g", ⟨true, [⟨0, "a"⟩, ⟨1, "b"⟩]⟩)],
       [(0, ⟨some "g", some "a", 0⟩), (1, ⟨some "g", some "b", 0⟩)],
       [(0, "g"), (1, "g")]⟩ 1).2 :=
  C5_started_teardown.2.1
    ⟨[("g", ⟨true, [⟨0, "a"⟩, ⟨1, "b"⟩]⟩)],
     [(0, ⟨some "g", some "a", 0⟩), (1, ⟨some "g", some "b", 0⟩)],
     [(0, "g"), (1, "g")]⟩
    1 0 "g" "b" ⟨true, [⟨0, "a"⟩, ⟨1, "b"⟩]⟩ (by decide) (by decide) rfl (by decide)

/-! ## Claim C6 -/

theorem stringMk_toList (s : String) : String.mk s.toList = s := rfl

theorem jsSplit_ne_nil (s : String) (sep : Char) : jsSplit s sep ≠ [] := by
  unfold jsSplit
  intro h
  rw [List.map_eq_nil_iff] at h
  exact List.splitOnP_ne_nil _ _ h

theorem gameEvent_str_dotfree (e : GameEvent) : ∀ x ∈ e.str.toList, ¬((x == '.') = true) := by
  cases e <;> decide

/-- The wire split of an encoded message: the event token comes off, and
the payload itself is further split at every dot. -/
theorem jsSplit_encode (e : GameEvent) (p : String) :
    jsSplit (encodeMessage e p) '.' = e.str :: jsSplit p '.' := by
  unfold jsSplit encodeMessage
  have h1 : (e.str ++ "." ++ p).toList = e.str.toList ++ '.' :: p.toList := by
    show ((e.str ++ "." ++ p)).data = e.str.data ++ '.' :: p.data
    rw [String.data_append, String.data_append, List.append_assoc]
    rfl
  rw [h1]
  unfold List.splitOn
  rw [List.splitOnP_first _ _ (gameEvent_str_dotfree e) '.' (by simp) p.toList]
  simp [stringMk_toList]

/-- C6 counterexample: `decode (encode GAMEACTION "a.b")` yields payload
`"a"`, not the complete original payload `"a.b"` — `split('.')` splits on
every dot and the destructuring keeps only the first post-event segment,
so the claimed round-trip fails for payloads containing a dot. -/
theorem C6_counterexample :
    decodeMessage (encodeMessage .GameAction "a.b") = ("GAMEACTION", some "a") ∧
      ("a" : String) ≠ "a.b" :=
  ⟨rfl, by decide⟩

/-- C6 amended: `encode` produces `"<EVENT>.<payload>"`, but `decode`
splits the raw string on every dot and keeps only the first segment after
the event: the decoded payload is the payload's prefix up to its first
dot.  The round-trip `decode (encode e p) = (e, p)` therefore holds
exactly when `p` contains no dot; a `GAMEACTION` payload containing a dot
is relayed truncated, not verbatim. -/
theorem C6_codec_roundtrip_amended (e : GameEvent) (p : String) :
    decodeMessage (encodeMessage e p) = (e.str, some ((jsSplit p '.').headD "")) := by
  unfold decodeMessage
  rw [jsSplit_encode]
  cases h : jsSplit p '.' with
  | nil => exact absurd h (jsSplit_ne_nil p '.')
  | cons a l => simp

/-! ## Claim C7 -/

theorem mem_subscribers_of {subs : List (ConnId × String)} {c : ConnId} {t : String}
    (h : (c, t) ∈ subs) : c ∈ subscribers subs t := by
  unfold subscribers
  exact List.mem_map_of_mem _ (List.mem_filter.2 ⟨h, by simp⟩)

theorem mem_subAdd_self (subs : List (ConnId × String)) (c : ConnId) (t : String) :
    (c, t) ∈ subAdd subs c t := by
  unfold subAdd
  split
  · assumption
  · exact List.mem_append_right _ (List.mem_singleton.2 rfl)

theorem mem_subAdd_of_mem {subs : List (ConnId × String)} {x : ConnId × String}
    (c : ConnId) (t : String) (h : x ∈ subs) : x ∈ subAdd subs c t := by
  unfold subAdd
  split
  · exact h
  · exact List.mem_append_left _ h

theorem not_mem_recipients_publishExcl (subs : List (ConnId × String)) (c : ConnId)
    (t m : String) : c ∉ recipients subs (.publishExcl c t m) := by
  unfold recipients
  intro h
  have := List.of_mem_filter h
  simp at this

theorem mem_recipients_publishExcl_of {subs : List (ConnId × String)} {x c : ConnId}
    {t : String} (m : String) (hne : x ≠ c) (h : (x, t) ∈ subs) :
    x ∈ recipients subs (.publishExcl c t m) := by
  unfold recipients
  exact List.mem_filter.2 ⟨mem_subscribers_of h, by simp [hne]⟩

/-- The fully-evaluated successful join into an existing session. -/
theorem tryJoin_success_some {st : ServerState} {c : ConnId} {k uu : String} {t : Int}
    {g : GameState}
    (h1 : isGameNameValid (some k) = true) (h2 : isUsernameValid (some uu) = true)
    (hg : gamesGetOpt st (some k) = some g)
    (hnin : isPlayerInGame g (some uu) = false)
    (hcap : g.players.length < MAX_PLAYERS) :
    tryJoin st c ⟨some k, some uu, t⟩ =
      ({ st with
          games := mapSet st.games k { g with players := g.players ++ [⟨c, uu⟩] },
          subs := subAdd st.subs c k },
       [.publishAll k (encodeMessage .JoinAccept
          (encodePlayerList (some { g with players := g.players ++ [⟨c, uu⟩] })))]) := by
  simp only [isPlayerInGame, List.any_eq_false] at hnin
  have hnex : ¬∃ x ∈ g.players, x.username = uu := by
    rintro ⟨p, hp, he⟩
    have := hnin p hp
    simp [he] at this
  have hncap : ¬(MAX_PLAYERS ≤ g.players.length) := by omega
  simp [tryJoin, validatePlayerData, validateGameAvailability,
    addAndSubscribePlayerToGame, h1, h2, hg, hnex, hncap, mapGet_mapSet_self]

/-- C7 counterexample: in the end-to-end scenario (alice joins `lobby1`,
bob joins, alice sends `GAMEACTION.foo`) the relay is a `ws.publish` from
alice's connection, whose recipient set is `[1]` — bob only; alice
(connection 0) is NOT a recipient, contradicting "both Alice and Bob
receive GAMEACTION.foo". -/
theorem C7_counterexample :
    (applyOp (applyOp (applyOp initState (.openConn 0 (some "lobby1") (some "alice") 0)).1
        (.msgEvt 1 "GAMEJOIN.lobby1,bob" 1)).1
      (.msgEvt 0 "GAMEACTION.foo" 2)).2
        = [Effect.publishExcl 0 "lobby1" "GAMEACTION.foo"] ∧
      recipients
        (applyOp (applyOp (applyOp initState (.openConn 0 (some "lobby1") (some "alice") 0)).1
          (.msgEvt 1 "GAMEJOIN.lobby1,bob" 1)).1
        (.msgEvt 0 "GAMEACTION.foo" 2)).1.subs
        (Effect.publishExcl 0 "lobby1" "GAMEACTION.foo") = [1] :=
  ⟨rfl, rfl⟩

/-- C7 amended: a successful join broadcasts `GAMEJOIN_ACCEPT` with the
full member list via a server-publish whose recipients are all
subscribers of the session topic, including the newly joined (and newly
subscribed) sender; the `GAMEACTION` relay in a started session is
instead published from the sender's connection (`publishToSelf` is off),
so it reaches every other subscribed member but never the sender. -/
theorem C7_broadcast_recipients_amended :
    (∀ (st : ServerState) (c : ConnId) (k uu : String) (t : Int) (g : GameState),
      isGameNameValid (some k) = true → isUsernameValid (some uu) = true →
      gamesGetOpt st (some k) = some g →
      isPlayerInGame g (some uu) = false →
      g.players.length < MAX_PLAYERS →
      (tryJoin st c ⟨some k, some uu, t⟩).2
          = [.publishAll k (encodeMessage .JoinAccept
              (encodePlayerList (some { g with players := g.players ++ [⟨c, uu⟩] })))] ∧
        (∀ m, c ∈ recipients (tryJoin st c ⟨some k, some uu, t⟩).1.subs (.publishAll k m)) ∧
        (∀ m p, p ∈ g.players → (p.ws, k) ∈ st.subs →
          p.ws ∈ recipients (tryJoin st c ⟨some k, some uu, t⟩).1.subs (.publishAll k m))) ∧
    (∀ (st : ServerState) (c : ConnId) (raw d : String) (now t : Int) (k u : String)
        (g : GameState),
      jsSplit raw '.' = ["GAMEACTION", d] →
      ctxGet st c = ⟨some k, some u, t⟩ →
      mapGet st.games k = some g →
      isPlayerInGame g (some u) = true →
      g.hasStarted = true →
      (handleMessage st c raw now).1.subs = st.subs ∧
        (handleMessage st c raw now).2 = [.publishExcl c k (encodeMessage .GameAction d)] ∧
        (∀ subs m, c ∉ recipients subs (.publishExcl c k m)) ∧
        (∀ m p, p ∈ g.players → p.ws ≠ c → (p.ws, k) ∈ st.subs →
          p.ws ∈ recipients st.subs (.publishExcl c k m))) := by
  constructor
  · intro st c k uu t g h1 h2 hg hnin hcap
    rw [tryJoin_success_some h1 h2 hg hnin hcap]
    refine ⟨rfl, ?_, ?_⟩
    · intro m
      exact mem_subscribers_of (mem_subAdd_self _ _ _)
    · intro m p hp hsub
      exact mem_subscribers_of (mem_subAdd_of_mem _ _ hsub)
  · intro st c raw d now t k u g hparse hctx hg hin hstart
    have e1 : (("GAMEACTION" : String) == "GAMEJOIN") = false := by decide
    have e2 : (("GAMEACTION" : String) == "GAMELEAVE") = false := by decide
    have e3 : (("GAMEACTION" : String) == "GAMEACTION") = true := by decide
    refine ⟨?_, ?_, fun subs m => not_mem_recipients_publishExcl subs c k m,
        fun m p hp hne hsub => mem_recipients_publishExcl_of m hne hsub⟩
    · simp only [handleMessage, hparse, List.headD_cons, GameEvent.str, e1, e2, e3,
        Bool.false_eq_true, if_false, if_true, List.get?_cons_succ, List.get?_cons_zero,
        hctx, gamesGetOpt, hg, hin, Option.getD_some]
      simp only [hstart, Bool.not_true, Bool.false_and, Bool.false_eq_true, if_false]
    · simp only [handleMessage, hparse, List.headD_cons, GameEvent.str, e1, e2, e3,
        Bool.false_eq_true, if_false, if_true, List.get?_cons_succ, List.get?_cons_zero,
        hctx, gamesGetOpt, hg, hin, Option.getD_some]
      simp only [hstart, Bool.not_true, Bool.false_and, Bool.false_eq_true, if_false]

/-- Witness for the amended C7: bob (connection 1) joining alice's
concrete lobby is himself a recipient of the roster broadcast. -/
theorem C7_broadcast_recipients_amended_witness :
    (1 : ConnId) ∈ recipients
      (tryJoin ⟨[("lobby1", ⟨false, [⟨0, "alice"⟩]⟩)],
        [(0, ⟨some "lobby1", some "alice", 0⟩)], [(0, "lobby1")]⟩
        1 ⟨some "lobby1", some "bob", 1⟩).1.subs
      (.publishAll "lobby1" "GAMEJOIN_ACCEPT.alice,bob") :=
  ((C7_broadcast_recipients_amended.1
    ⟨[("lobby1", ⟨false, [⟨0, "alice"⟩]⟩)],
      [(0, ⟨some "lobby1", some "alice", 0⟩)], [(0, "lobby1")]⟩
    1 "lobby1" "bob" 1 ⟨false, [⟨0, "alice"⟩]⟩
    (by decide) (by decide) (by decide) (by decide) (by decide)).2.1)
    "GAMEJOIN_ACCEPT.alice,bob"

/-! ## Claim C8 -/

theorem ping_not_mem_removeEffects (st : ServerState) (loc : Option String)
    (g : GameState) (c : ConnId) (reason : String) (x : ConnId) :
    Effect.ping x ∉ (removePlayerFromGame st loc g c reason).2.2 := by
  unfold removePlayerFromGame
  cases hs : g.hasStarted <;> simp [hs]

/-- C8: on a sweep tick at time `now`, the per-member body evicts exactly
the connections whose last pong is older than `2 * PING_INTERVAL`
(`lastPing - lastPong > PING_INTERVAL` with `lastPing = now - PING_INTERVAL`):
the eviction runs the shared removal path with reason `PLAYER_TIMEOUT` and
closes the transport link; every other member is sent a liveness probe
and nothing is removed. -/
theorem C8_liveness_threshold (now : Int) (gkey : String) (st : ServerState)
    (g : GameState) (inMap : Bool) (p : Player) :
    (Effect.close p.ws 1000 "PING_TIMEOUT" ∈ (sweepStep now gkey (st, g, inMap) p).2
      ↔ now - (ctxGet st p.ws).lastPong > 2 * PING_INTERVAL) ∧
    (Effect.ping p.ws ∈ (sweepStep now gkey (st, g, inMap) p).2
      ↔ ¬(now - (ctxGet st p.ws).lastPong > 2 * PING_INTERVAL)) ∧
    (¬(now - (ctxGet st p.ws).lastPong > 2 * PING_INTERVAL) →
      (sweepStep now gkey (st, g, inMap) p).1 = (st, g, inMap)) ∧
    (now - (ctxGet st p.ws).lastPong > 2 * PING_INTERVAL →
      (sweepStep now gkey (st, g, inMap) p).1.1
          = (removePlayerFromGame st (if inMap then some gkey else none) g p.ws
              "PLAYER_TIMEOUT").1 ∧
        (sweepStep now gkey (st, g, inMap) p).1.2.1
          = (removePlayerFromGame st (if inMap then some gkey else none) g p.ws
              "PLAYER_TIMEOUT").2.1 ∧
        (sweepStep now gkey (st, g, inMap) p).2
          = (removePlayerFromGame st (if inMap then some gkey else none) g p.ws
              "PLAYER_TIMEOUT").2.2 ++ [.close p.ws 1000 "PING_TIMEOUT"]) := by
  have harith : ∀ (T x L : Int), (x - T - L > T) ↔ (x - L > 2 * T) := by
    intro T x L
    omega
  by_cases ht : now - PING_INTERVAL - (ctxGet st p.ws).lastPong > PING_INTERVAL
  · have ht2 : now - (ctxGet st p.ws).lastPong > 2 * PING_INTERVAL :=
      (harith PING_INTERVAL now _).1 ht
    simp only [sweepStep]
    rw [if_pos ht]
    refine ⟨?_, ?_, ?_, ?_⟩
    · exact ⟨fun _ => ht2,
        fun _ => List.mem_append_right _ (List.mem_singleton.2 rfl)⟩
    · constructor
      · intro hping
        rcases List.mem_append.1 hping with h | h
        · exact absurd h (ping_not_mem_removeEffects _ _ _ _ _ _)
        · simp at h
      · intro hn
        exact absurd ht2 hn
    · intro hn
      exact absurd ht2 hn
    · intro _
      exact ⟨rfl, rfl, rfl⟩
  · have ht2 : ¬(now - (ctxGet st p.ws).lastPong > 2 * PING_INTERVAL) :=
      fun h => ht ((harith PING_INTERVAL now _).2 h)
    simp only [sweepStep]
    rw [if_neg ht]
    refine ⟨?_, ?_, ?_, ?_⟩
    · constructor
      · intro h
        simp at h
      · intro h
        exact absurd h ht2
    · exact ⟨fun _ => ht2, fun _ => List.mem_singleton.2 rfl⟩
    · intro _
      rfl
    · intro h
      exact absurd h ht2

/-- Witness for C8: a concrete timed-out member is closed by the sweep
step, and a fresh one is pinged. -/
theorem C8_liveness_threshold_witness :
    Effect.close 0 1000 "PING_TIMEOUT"
        ∈ (sweepStep 200000 "g"
            (⟨[("g", ⟨false, [⟨0, "a"⟩]⟩)], [(0, ⟨some "g", some "a", 3⟩)], [(0, "g")]⟩,
             ⟨false, [⟨0, "a"⟩]⟩, true) ⟨0, "a"⟩).2 ∧
      Effect.ping 0
        ∈ (sweepStep 100000 "g"
            (⟨[("g", ⟨false, [⟨0, "a"⟩]⟩)], [(0, ⟨some "g", some "a", 50000⟩)], [(0, "g")]⟩,
             ⟨false, [⟨0, "a"⟩]⟩, true) ⟨0, "a"⟩).2 :=
  ⟨(C8_liveness_threshold 200000 "g"
      ⟨[("g", ⟨false, [⟨0, "a"⟩]⟩)], [(0, ⟨some "g", some "a", 3⟩)], [(0, "g")]⟩
      ⟨false, [⟨0, "a"⟩]⟩ true ⟨0, "a"⟩).1.mpr (by decide),
   (C8_liveness_threshold 100000 "g"
      ⟨[("g", ⟨false, [⟨0, "a"⟩]⟩)], [(0, ⟨some "g", some "a", 50000⟩)], [(0, "g")]⟩
      ⟨false, [⟨0, "a"⟩]⟩ true ⟨0, "a"⟩).2.1.mpr (by decide)⟩

/-! ## Claim C9 -/

theorem validatePlayerData_false_effects {c : ConnId} {ctx : Ctx} {game : Option GameState}
    (h : (validatePlayerData c ctx game).1 = false) :
    ∃ r, (validatePlayerData c ctx game).2 = [Effect.send c r] := by
  unfold validatePlayerData at h ⊢
  by_cases h1 : isGameNameValid ctx.gameName
  · by_cases h2 : isUsernameValid ctx.username
    · cases game with
      | none => simp [h1, h2] at h
      | some g =>
        by_cases h3 : g.players.any (fun p => some p.username == ctx.username)
        · simp only [h1, h2, Bool.not_true, Bool.false_eq_true, if_false, h3, if_true]
          exact ⟨_, rfl⟩
        · simp [h1, h2, h3] at h
    · simp only [h1, h2, Bool.not_true, Bool.not_false, Bool.false_eq_true, if_false, if_true]
      exact ⟨_, rfl⟩
  · simp only [h1, Bool.not_false, if_true]
    exact ⟨_, rfl⟩

theorem validateGameAvailability_false_effects {c : ConnId} {game : Option GameState}
    (h : (validateGameAvailability c game).1 = false) :
    ∃ r, (validateGameAvailability c game).2 = [Effect.send c r] := by
  unfold validateGameAvailability at h ⊢
  cases game with
  | none => simp at h
  | some g =>
    by_cases h1 : MAX_PLAYERS ≤ g.players.length
    · simp only [h1, decide_eq_true_eq, if_pos]
      exact ⟨_, rfl⟩
    · simp [h1] at h

/-- C9 counterexample: a join with a 33-character game name is denied with
the `GAMEJOIN_DENY.GAME_NAME_INVALID` *message* only — the registry is
untouched, but no transport close (with code 4000 or any other code) is
issued, contradicting the claimed close-with-code behaviour. -/
theorem C9_counterexample :
    (applyOp initState (.msgEvt 0 "GAMEJOIN.xxxxxxxxxxxxxxxxxxxxxxxxxxxxxxxxx,a" 0)).1.games
        = [] ∧
      (applyOp initState (.msgEvt 0 "GAMEJOIN.xxxxxxxxxxxxxxxxxxxxxxxxxxxxxxxxx,a" 0)).2
        = [Effect.send 0 "GAMEJOIN_DENY.GAME_NAME_INVALID"] ∧
      (∀ code m, Effect.close 0 code m
        ∉ (applyOp initState (.msgEvt 0 "GAMEJOIN.xxxxxxxxxxxxxxxxxxxxxxxxxxxxxxxxx,a" 0)).2) :=
  ⟨rfl, rfl, by intro code m h; rw [show (applyOp initState
    (.msgEvt 0 "GAMEJOIN.xxxxxxxxxxxxxxxxxxxxxxxxxxxxxxxxx,a" 0)).2
      = [Effect.send 0 "GAMEJOIN_DENY.GAME_NAME_INVALID"] from rfl] at h; simp at h⟩

/-- C9 amended: a join attempt that fails validation (the source's
composed guard `validatePlayerData && validateGameAvailability` is false)
leaves the entire server state — registry, contexts, subscriptions — as
the join path found it, and produces exactly one unicast `GAMEJOIN_DENY`
message to the attempting connection; the connection is not closed (no
close effect of any code is issued). -/
theorem C9_denied_join_amended (st : ServerState) (c : ConnId) (ctx : Ctx)
    (hfail : ((validatePlayerData c ctx (gamesGetOpt st ctx.gameName)).1
        && (validateGameAvailability c (gamesGetOpt st ctx.gameName)).1) = false) :
    (tryJoin st c ctx).1 = st ∧
      (∃ reason, (tryJoin st c ctx).2 = [Effect.send c reason]) ∧
      (∀ code m, Effect.close c code m ∉ (tryJoin st c ctx).2) := by
  unfold tryJoin
  by_cases h1 : (validatePlayerData c ctx (gamesGetOpt st ctx.gameName)).1
  · have h2 : (validateGameAvailability c (gamesGetOpt st ctx.gameName)).1 = false := by
      rw [h1] at hfail
      simpa using hfail
    obtain ⟨r, hr⟩ := validateGameAvailability_false_effects h2
    simp only [h1, if_true, h2, Bool.false_eq_true, if_false]
    refine ⟨by trivial, ⟨r, hr⟩, ?_⟩
    intro code m h
    rw [hr] at h
    simp at h
  · have h1f : (validatePlayerData c ctx (gamesGetOpt st ctx.gameName)).1 = false := by
      simpa using h1
    obtain ⟨r, hr⟩ := validatePlayerData_false_effects h1f
    simp only [h1, Bool.false_eq_true, if_false]
    refine ⟨by trivial, ⟨r, hr⟩, ?_⟩
    intro code m h
    rw [hr] at h
    simp at h

/-- Witness for the amended C9: the 33-character-name denial leaves the
initial state untouched. -/
theorem C9_denied_join_amended_witness :
    (tryJoin initState 0 ⟨some "xxxxxxxxxxxxxxxxxxxxxxxxxxxxxxxxx", some "a", 0⟩).1
      = initState :=
  (C9_denied_join_amended initState 0
    ⟨some "xxxxxxxxxxxxxxxxxxxxxxxxxxxxxxxxx", some "a", 0⟩ (by decide)).1

/-! ## Claim C10 -/

theorem find_ctxSet_self (l : List (ConnId × Ctx)) (c : ConnId) (v : Ctx) :
    (ctxSet l c v).find? (fun p => p.1 = c) = some (c, v) := by
  induction l with
  | nil => simp [ctxSet]
  | cons hd tl ih =>
    obtain ⟨c0, v0⟩ := hd
    by_cases hc : c0 = c
    · subst hc
      simp [ctxSet]
    · simp [ctxSet, hc, ih]

theorem ctxGet_eq_of_ctxs {st : ServerState} {l : List (ConnId × Ctx)} {c : ConnId}
    {v : Ctx} (h : st.ctxs = ctxSet l c v) : ctxGet st c = v := by
  unfold ctxGet
  rw [h, find_ctxSet_self]

/-- `tryJoin` never touches any connection's stored context. -/
theorem tryJoin_ctxs (st : ServerState) (c : ConnId) (ctx : Ctx) :
    (tryJoin st c ctx).1.ctxs = st.ctxs := by
  unfold tryJoin
  by_cases h1 : (validatePlayerData c ctx (gamesGetOpt st ctx.gameName)).1
  · by_cases h2 : (validateGameAvailability c (gamesGetOpt st ctx.gameName)).1
    · simp only [h1, h2, if_true]
      unfold addAndSubscribePlayerToGame
      cases gamesGetOpt st ctx.gameName <;> rfl
    · simp only [h1, if_true, h2, Bool.false_eq_true, if_false]
  · simp only [h1, Bool.false_eq_true, if_false]

/-- A join whose composed source guard is false returns the state it was
given. -/
theorem tryJoin_denied_state (st : ServerState) (c : ConnId) (ctx : Ctx)
    (hfail : ((validatePlayerData c ctx (gamesGetOpt st ctx.gameName)).1
        && (validateGameAvailability c (gamesGetOpt st ctx.gameName)).1) = false) :
    (tryJoin st c ctx).1 = st := by
  unfold tryJoin
  by_cases h1 : (validatePlayerData c ctx (gamesGetOpt st ctx.gameName)).1
  · have h2 : (validateGameAvailability c (gamesGetOpt st ctx.gameName)).1 = false := by
      rw [h1] at hfail
      simpa using hfail
    simp only [h1, if_true, h2, Bool.false_eq_true, if_false]
  · simp only [h1, Bool.false_eq_true, if_false]

/-- C10: processing a `GAMEJOIN` always overwrites the connection's stored
context with the values parsed from the payload (and a fresh `lastPong`)
before validation runs: (A) the overwrite happens even when the join is
then denied; (B) a denied join changes no session, so the connection's old
membership survives while its context now names the denied game; (C)/(D)
a later `GAMELEAVE` or transport close keyed by a stored game name that
resolves to no session does nothing at all — the old membership is
orphaned. -/
theorem C10_ctx_overwrite :
    (∀ (st : ServerState) (c : ConnId) (raw d gn un : String) (now : Int),
      jsSplit raw '.' = ["GAMEJOIN", d] →
      jsSplit d ',' = [gn, un] →
      ctxGet (handleMessage st c raw now).1 c = ⟨some gn, some un, now⟩) ∧
    (∀ (st : ServerState) (c : ConnId) (raw d gn un : String) (now : Int),
      jsSplit raw '.' = ["GAMEJOIN", d] →
      jsSplit d ',' = [gn, un] →
      ((validatePlayerData c ⟨some gn, some un, now⟩ (mapGet st.games gn)).1
          && (validateGameAvailability c (mapGet st.games gn)).1) = false →
      (handleMessage st c raw now).1.games = st.games) ∧
    (∀ (st : ServerState) (c : ConnId) (now : Int),
      gamesGetOpt st (ctxGet st c).gameName = none →
      handleMessage st c "GAMELEAVE" now = (st, [])) ∧
    (∀ (st : ServerState) (c : ConnId),
      gamesGetOpt st (ctxGet st c).gameName = none →
      handleClose st c = (st, [])) := by
  have ej : (("GAMEJOIN" : String) == "GAMEJOIN") = true := by decide
  refine ⟨?_, ?_, ?_, ?_⟩
  · intro st c raw d gn un now hparse hd
    simp only [handleMessage, hparse, List.headD_cons, List.get?_cons_succ,
      List.get?_cons_zero, GameEvent.str, ej, if_true, hd]
    exact ctxGet_eq_of_ctxs (l := st.ctxs) (tryJoin_ctxs _ _ _)
  · intro st c raw d gn un now hparse hd hfail
    simp only [handleMessage, hparse, List.headD_cons, List.get?_cons_succ,
      List.get?_cons_zero, GameEvent.str, ej, if_true, hd]
    rw [tryJoin_denied_state
      { st with ctxs := ctxSet st.ctxs c ⟨some gn, some un, now⟩ } c
      ⟨some gn, some un, now⟩ hfail]
  · intro st c now hnone
    have e1 : (("GAMELEAVE" : String) == "GAMEJOIN") = false := by decide
    have e2 : (("GAMELEAVE" : String) == "GAMELEAVE") = true := by decide
    have hsplit : jsSplit "GAMELEAVE" '.' = ["GAMELEAVE"] := by decide
    simp only [handleMessage, hsplit, List.headD_cons, GameEvent.str, e1, e2,
      Bool.false_eq_true, if_false, if_true, hnone]
  · intro st c hnone
    simp only [handleClose, hnone]

/-- Witness for C10: alice (connection 0), already the sole member of
session `g`, sends a `GAMEJOIN` with a 33-character game name; the join is
denied, her context now stores the invalid name, and her old membership in
`g` is untouched. -/
theorem C10_ctx_overwrite_witness :
    ctxGet ((handleMessage (applyOp initState (.openConn 0 (some "g") (some "a") 0)).1
        0 "GAMEJOIN.xxxxxxxxxxxxxxxxxxxxxxxxxxxxxxxxx,b" 5).1) 0
        = ⟨some "xxxxxxxxxxxxxxxxxxxxxxxxxxxxxxxxx", some "b", 5⟩ ∧
      (handleMessage (applyOp initState (.openConn 0 (some "g") (some "a") 0)).1
        0 "GAMEJOIN.xxxxxxxxxxxxxxxxxxxxxxxxxxxxxxxxx,b" 5).1.games
        = (applyOp initState (.openConn 0 (some "g") (some "a") 0)).1.games :=
  ⟨C10_ctx_overwrite.1 (applyOp initState (.openConn 0 (some "g") (some "a") 0)).1
      0 "GAMEJOIN.xxxxxxxxxxxxxxxxxxxxxxxxxxxxxxxxx,b"
      "xxxxxxxxxxxxxxxxxxxxxxxxxxxxxxxxx,b" "xxxxxxxxxxxxxxxxxxxxxxxxxxxxxxxxx" "b" 5
      (by decide) (by decide),
   C10_ctx_overwrite.2.1 (applyOp initState (.openConn 0 (some "g") (some "a") 0)).1
      0 "GAMEJOIN.xxxxxxxxxxxxxxxxxxxxxxxxxxxxxxxxx,b"
      "xxxxxxxxxxxxxxxxxxxxxxxxxxxxxxxxx,b" "xxxxxxxxxxxxxxxxxxxxxxxxxxxxxxxxx" "b" 5
      (by decide) (by decide) (by decide)⟩

end Lobby
